import Mathlib

/-!
# nel/network.h: reactor and worker pool of a TCP server

A shallow embedding of `src/nel/network.h`.  The header selects one of three readiness
back ends with the preprocessor; the definitions below follow the default (`#else`, Linux
epoll) branch of every `#if`.

* Every call that leaves the program (system calls, the user callback, condition-variable
  notifications, writes to the caller-owned `server_running` flag) is appended to a
  chronological `trace`.
* A value returned by the operating system is an argument of the function that consumes it,
  so every theorem quantifies over all behaviours of the operating system.
* The threads of `run_server` are a step function `step` on a `Server` state; one label is one
  atomic block of one thread.
-/

namespace nel

/-! ## Data model -/

/-- The POSIX variant of `socket_type`: a wrapper around an `int` descriptor. -/
structure socket_type where
  handle : Int
deriving DecidableEq, Repr

/-- The constant `socket_type::EMPTY_SOCKET`. -/
def socket_type.EMPTY_SOCKET : Int := -1

/-- The method `socket_type::is_valid`: `handle >= 0`. -/
def socket_type.is_valid (s : socket_type) : Bool := decide (s.handle ≥ 0)

/-- The static method `socket_type::is_empty`. -/
def socket_type.is_empty (key : socket_type) : Bool := decide (key.handle = socket_type.EMPTY_SOCKET)

/-- Modelled from the spec: `core::array<T>` lives in `core/array.h`, which is not among the
sources.  The spec describes the ready queue as "an ordered sequence of SocketHandle, FIFO
semantics", duplicates permitted, growing as needed. -/
structure array (α : Type) where
  data : List α
deriving DecidableEq, Repr

/-- Modelled from the spec: `array::add` ("push"), which puts the element at the back of the
ordered sequence. -/
def array.add {α : Type} (a : array α) (x : α) : array α := ⟨a.data ++ [x]⟩

/-- Modelled from the spec: `array::pop`, which under the FIFO semantics of the spec takes the
element at the front; there is no result on an empty sequence. -/
def array.pop {α : Type} (a : array α) : Option (α × array α) :=
  match a.data with
  | [] => none
  | x :: rest => some (x, ⟨rest⟩)

/-- Modelled from the spec: `core::hash_set<T>` lives in `core/map.h`, which is not among the
sources.  The spec describes the registry as "a set of SocketHandle" with `add`, `remove`,
`contains` and iteration. -/
structure hash_set (α : Type) where
  keys : List α
deriving DecidableEq, Repr

/-- Modelled from the spec: `hash_set::contains`. -/
def hash_set.contains {α : Type} [DecidableEq α] (s : hash_set α) (x : α) : Bool :=
  decide (x ∈ s.keys)

/-- Modelled from the spec: `hash_set::add`, set insertion. -/
def hash_set.add {α : Type} [DecidableEq α] (s : hash_set α) (x : α) : hash_set α :=
  if x ∈ s.keys then s else ⟨s.keys ++ [x]⟩

/-- Modelled from the spec: `hash_set::remove`, set deletion. -/
def hash_set.remove {α : Type} [DecidableEq α] (s : hash_set α) (x : α) : hash_set α :=
  ⟨s.keys.filter (fun y => decide (y ≠ x))⟩

/-- One call that leaves the program.  `Args` is the type of the forwarded `callback_args`.
The event mask of the three `epoll_ctl` calls is `EPOLLIN | EPOLLERR`, with `EPOLLONESHOT`
exactly when `oneshot` is set. -/
inductive Call (Args : Type) where
  | socket (result : Int)
  | setsockopt (fd : Int) (result : Int)
  | bind (fd : Int) (port : Nat) (result : Int)
  | listen (fd : Int) (backlog : Nat) (result : Int)
  | epoll_create1 (result : Int)
  | epoll_ctl_add (epfd fd : Int) (oneshot : Bool) (result : Int)
  | epoll_ctl_mod (epfd fd : Int) (oneshot : Bool) (result : Int)
  | epoll_ctl_del (epfd fd : Int) (result : Int)
  | epoll_wait (epfd : Int) (result : Int)
  | close (fd : Int)
  | shutdown (fd : Int)
  | accept (fd : Int) (result : Int)
  | recv_peek (fd : Int) (result : Int)
  | perror (message : String)
  | process_message (connection : socket_type) (args : Args)
  | write_server_running (value : Bool)
  | init_cv_notify_all
  | cv_notify_one
  | cv_notify_all
  | thread_start (i : Nat)
  | thread_join (i : Nat)
deriving DecidableEq, Repr

/-- The function `listener_error`: `perror(message)`. -/
def listener_error {Args : Type} (message : String) : List (Call Args) := [Call.perror message]

/-- The function `network_error`: `perror(message)`. -/
def network_error {Args : Type} (message : String) : List (Call Args) := [Call.perror message]

/-- The epoll variant of `socket_listener`; the scratch array `events` is the argument of the
step that receives a batch. -/
structure socket_listener where
  listener : Int
deriving DecidableEq, Repr

/-- The method `socket_listener::add_socket<Oneshot>`; `ctl` is what `epoll_ctl` returns. -/
def socket_listener.add_socket {Args : Type} (l : socket_listener) (Oneshot : Bool)
    (socket : socket_type) (ctl : Int) : Bool × List (Call Args) :=
  if ctl = -1 then
    (false, [Call.epoll_ctl_add l.listener socket.handle Oneshot ctl]
      ++ listener_error ("socket_listener.add_socket ERROR: Failed to listen to socket"))
  else
    (true, [Call.epoll_ctl_add l.listener socket.handle Oneshot ctl])

/-- The method `socket_listener::update_socket<Oneshot>`; on failure it shuts the socket down
itself before it returns false. -/
def socket_listener.update_socket {Args : Type} (l : socket_listener) (Oneshot : Bool)
    (socket : socket_type) (ctl : Int) : Bool × List (Call Args) :=
  if ctl = -1 then
    (false, [Call.epoll_ctl_mod l.listener socket.handle Oneshot ctl]
      ++ listener_error ("socket_listener.update_socket ERROR: Failed to modify listen event")
      ++ [Call.shutdown socket.handle])
  else
    (true, [Call.epoll_ctl_mod l.listener socket.handle Oneshot ctl])

/-- The method `socket_listener::remove_socket`. -/
def socket_listener.remove_socket {Args : Type} (l : socket_listener)
    (socket : socket_type) (ctl : Int) : Bool × List (Call Args) :=
  if ctl = -1 then
    (false, [Call.epoll_ctl_del l.listener socket.handle ctl]
      ++ listener_error ("socket_listener.remove_socket ERROR: Failed to remove listen event"))
  else
    (true, [Call.epoll_ctl_del l.listener socket.handle ctl])

/-- The static method `socket_listener::free`: `close(listener.listener)`. -/
def socket_listener.free {Args : Type} (l : socket_listener) : List (Call Args) :=
  [Call.close l.listener]

/-- The function `init(socket_listener&)`; `fd` is what `epoll_create1(0)` returns. -/
def init {Args : Type} (fd : Int) : Bool × socket_listener × List (Call Args) :=
  if fd = -1 then
    (false, ⟨fd⟩, [Call.epoll_create1 fd]
      ++ listener_error ("init ERROR: Unable to initialize socket listener"))
  else
    (true, ⟨fd⟩, [Call.epoll_create1 fd])

/-! ## The caller-owned flag and `cleanup_server` -/

/-- The objects that `run_server` receives by reference and writes: the flag `server_running`
and, through the trace, the condition variable `init_cv`. -/
structure RunState (Args : Type) where
  server_running : Bool
  trace : List (Call Args)
deriving DecidableEq, Repr

/-- Appends calls to the trace. -/
def RunState.calls {Args : Type} (s : RunState Args) (cs : List (Call Args)) : RunState Args :=
  { s with trace := s.trace ++ cs }

/-- The overload `cleanup_server<Success>(server_running, init_cv)`. -/
def cleanup_server {Args : Type} (Success : Bool) (s : RunState Args) : RunState Args :=
  if !Success then
    { server_running := false,
      trace := s.trace ++ [Call.write_server_running false, Call.init_cv_notify_all] }
  else s

/-- The overload `cleanup_server<Success>(server_running, init_cv, sock)`. -/
def cleanup_server_sock {Args : Type} (Success : Bool) (s : RunState Args)
    (sock : socket_type) : RunState Args :=
  cleanup_server Success (s.calls [Call.shutdown sock.handle])

/-- The overload `cleanup_server<Success>(server_running, init_cv, sock, listener)`. -/
def cleanup_server_listener {Args : Type} (Success : Bool) (s : RunState Args)
    (sock : socket_type) (listener : socket_listener) : RunState Args :=
  cleanup_server_sock Success (s.calls listener.free) sock

/-! ## The state of a started server -/

/-- Where a worker thread stands in `run_worker`: at the loop test, blocked in `cv.wait`,
or returned. -/
inductive WorkerPc where
  | loop_test
  | waiting
  | exited
deriving DecidableEq, Repr

/-- Where the reactor thread stands in `run_server` after startup: at the loop test, blocked in
`epoll_wait`, inside the `for` loop of `listen` with the events not yet dispatched, waiting to
join the workers, or returned. -/
inductive ReactorPc where
  | loop_test
  | in_listen
  | dispatching (pending : List socket_type)
  | joining
  | returned
deriving DecidableEq, Repr

/-- The variables of `run_server` that live across the main loop. -/
structure Server (Args : Type) where
  sock : socket_type
  listener : socket_listener
  connections : hash_set socket_type
  event_queue : array socket_type
  server_running : Bool
  callback_args : Args
  workers : List WorkerPc
  reactor : ReactorPc
  trace : List (Call Args)
deriving DecidableEq, Repr

/-- Appends calls to the trace. -/
def Server.calls {Args : Type} (st : Server Args) (cs : List (Call Args)) : Server Args :=
  { st with trace := st.trace ++ cs }

/-! ## Startup of `run_server` -/

/-- What the operating system returns to the six startup calls of `run_server`. -/
structure StartupOracle where
  socket_result : Int
  setsockopt_result : Int
  bind_result : Int
  listen_result : Int
  epoll_create1_result : Int
  epoll_ctl_result : Int
deriving DecidableEq, Repr

/-- Outcome of the startup part of `run_server`: an early `return false`, with the value left
in `sock`, or a started server. -/
inductive Startup (Args : Type) where
  | failed (sock : socket_type) (s : RunState Args)
  | started (st : Server Args)
deriving DecidableEq, Repr

/-- The function `run_server` from its first statement to `init_cv.notify_all()`.
`server_running` is the value of the caller-owned flag at entry; the trace starts empty, so it
holds the calls of this invocation. -/
def run_server_startup {Args : Type} (o : StartupOracle) (server_port : Nat)
    (connection_queue_capacity worker_count : Nat) (callback_args : Args)
    (server_running : Bool) : Startup Args :=
  let s : RunState Args := ⟨server_running, []⟩
  let sock : socket_type := ⟨o.socket_result⟩
  let s := s.calls [Call.socket o.socket_result]
  if !sock.is_valid then
    Startup.failed sock (cleanup_server false
      (s.calls (network_error ("run_server ERROR: Unable to open socket"))))
  else
  let s := s.calls [Call.setsockopt sock.handle o.setsockopt_result]
  if o.setsockopt_result ≠ 0 then
    Startup.failed sock (cleanup_server_sock false
      (s.calls (network_error ("run_server ERROR: Unable to set socket option"))) sock)
  else
  let s := s.calls [Call.bind sock.handle server_port o.bind_result]
  if o.bind_result ≠ 0 then
    Startup.failed sock (cleanup_server_sock false
      (s.calls (network_error ("run_server ERROR: Unable to bind to socket"))) sock)
  else
  let s := s.calls [Call.listen sock.handle connection_queue_capacity o.listen_result]
  if o.listen_result ≠ 0 then
    Startup.failed sock (cleanup_server_sock false
      (s.calls (network_error ("run_server ERROR: Unable to listen to socket"))) sock)
  else
  match init o.epoll_create1_result with
  | (false, _, cs) =>
    Startup.failed sock (cleanup_server_sock false
      ((s.calls cs).calls
        (network_error ("run_server ERROR: Failed to initialize socket listener"))) sock)
  | (true, listener, cs) =>
  let s := s.calls cs
  match listener.add_socket false sock o.epoll_ctl_result with
  | (false, cs) =>
    Startup.failed sock (cleanup_server_listener false (s.calls cs) sock listener)
  | (true, cs) =>
  let s := s.calls cs
  Startup.started
    { sock := sock,
      listener := listener,
      connections := ⟨[]⟩,
      event_queue := ⟨[]⟩,
      server_running := s.server_running,
      callback_args := callback_args,
      workers := List.replicate worker_count WorkerPc.loop_test,
      reactor := ReactorPc.loop_test,
      trace := s.trace ++ (List.range worker_count).map Call.thread_start
        ++ [Call.init_cv_notify_all] }

/-! ## The reactor callback and the worker body -/

/-- The lambda that `run_server` passes to `listener.listen`, applied to one ready `socket`.
`accept_result` is what `accept` returns and `ctl` what `epoll_ctl` returns, when called. -/
def reactor_callback {Args : Type} (st : Server Args) (socket : socket_type)
    (accept_result ctl : Int) : Server Args :=
  if socket = ⟨st.sock.handle⟩ then
    let connection : socket_type := ⟨accept_result⟩
    let st := st.calls [Call.accept st.sock.handle accept_result]
    if !connection.is_valid then
      st.calls (network_error ("run_server ERROR: Error establishing connection with client"))
    else
      match st.listener.add_socket true connection ctl with
      | (false, cs) => (st.calls cs).calls [Call.shutdown connection.handle]
      | (true, cs) =>
        let st := st.calls cs
        { st with connections := st.connections.add connection }
  else
    let st := { st with event_queue := st.event_queue.add socket }
    st.calls [Call.cv_notify_one]

/-- The body of the loop of `run_worker` after `lck.unlock()`, for the popped `connection`.
`peek` is what the one-byte `recv(..., MSG_PEEK)` returns and `ctl` what `epoll_ctl` returns. -/
def run_worker_body {Args : Type} (st : Server Args) (connection : socket_type)
    (peek ctl : Int) : Server Args :=
  let st := st.calls [Call.recv_peek connection.handle peek]
  if peek = 0 then
    let st := st.calls (st.listener.remove_socket connection ctl).2
    let st := { st with connections := st.connections.remove connection }
    st.calls [Call.shutdown connection.handle]
  else
    let st := st.calls [Call.process_message connection st.callback_args]
    match st.listener.update_socket true connection ctl with
    | (false, cs) => (st.calls cs).calls [Call.shutdown connection.handle]
    | (true, cs) => st.calls cs

/-! ## The threads of a started server as a step function -/

/-- One atomic block of one thread.

* `worker_test i`: worker `i` evaluates `while (server_running)`, locks the queue mutex and
  blocks in `cv.wait(lck)`, or leaves the loop.
* `worker_iteration i peek ctl`: `cv.wait` returns in worker `i` (after a notification or
  spuriously) and the worker runs from `if (!server_running) break;` to the end of the loop
  body.
* `reactor_test`: the reactor evaluates `while (server_running)`; when the flag is false it
  leaves the loop and calls `cv.notify_all()`.
* `reactor_wait n events`: `epoll_wait` returns `n` with the ready sockets in `events`.
* `reactor_callback accept_result ctl`: `listen` invokes the callback on the next ready socket.
* `reactor_join`: every worker has returned; the reactor joins them, shuts the remaining
  connections down, runs `cleanup_server<true>` and returns true.
* `set_running b`: the owner of the flag writes `server_running`. -/
inductive Label where
  | worker_test (i : Nat)
  | worker_iteration (i : Nat) (peek ctl : Int)
  | reactor_test
  | reactor_wait (event_count : Int) (events : List socket_type)
  | reactor_callback (accept_result ctl : Int)
  | reactor_join
  | set_running (b : Bool)
deriving DecidableEq, Repr

/-- Result of a step: the next state, a label that the state does not enable, or a worker
executing `event_queue.pop()` on an empty queue, after which the behaviour of the program is
undefined. -/
inductive Outcome (σ : Type) where
  | ok (st : σ)
  | disabled
  | pop_on_empty_queue
deriving DecidableEq, Repr

/-- Sets the program counter of worker `i`. -/
def Server.set_worker {Args : Type} (st : Server Args) (i : Nat) (pc : WorkerPc) : Server Args :=
  { st with workers := st.workers.set i pc }

/-- The statements of `run_server` after the main loop, from `workers[i].join()` to
`return true` (the preceding `cv.notify_all()` belongs to `reactor_test`). -/
def run_server_shutdown {Args : Type} (st : Server Args) : Server Args :=
  let st := st.calls ((List.range st.workers.length).map Call.thread_join)
  let st := st.calls (st.connections.keys.map (fun connection => Call.shutdown connection.handle))
  let s := cleanup_server_listener true ⟨st.server_running, st.trace⟩ st.sock st.listener
  { st with server_running := s.server_running, trace := s.trace, reactor := ReactorPc.returned }

/-- The step function of the started server. -/
def step {Args : Type} (st : Server Args) : Label → Outcome (Server Args)
  | Label.worker_test i =>
    match st.workers[i]? with
    | some WorkerPc.loop_test =>
      if st.server_running then Outcome.ok (st.set_worker i WorkerPc.waiting)
      else Outcome.ok (st.set_worker i WorkerPc.exited)
    | _ => Outcome.disabled
  | Label.worker_iteration i peek ctl =>
    match st.workers[i]? with
    | some WorkerPc.waiting =>
      if !st.server_running then Outcome.ok (st.set_worker i WorkerPc.exited)
      else
        match st.event_queue.pop with
        | none => Outcome.pop_on_empty_queue
        | some (connection, rest) =>
          Outcome.ok ((run_worker_body { st with event_queue := rest } connection peek ctl).set_worker
            i WorkerPc.loop_test)
    | _ => Outcome.disabled
  | Label.reactor_test =>
    match st.reactor with
    | ReactorPc.loop_test =>
      if st.server_running then Outcome.ok { st with reactor := ReactorPc.in_listen }
      else Outcome.ok { st.calls [Call.cv_notify_all] with reactor := ReactorPc.joining }
    | _ => Outcome.disabled
  | Label.reactor_wait event_count events =>
    match st.reactor with
    | ReactorPc.in_listen =>
      let st := st.calls [Call.epoll_wait st.listener.listener event_count]
      if event_count = -1 then
        Outcome.ok { st.calls (listener_error
          ("socket_listener.listen ERROR: Error listening for incoming network activity"))
          with reactor := ReactorPc.loop_test }
      else
        match events.take event_count.toNat with
        | [] => Outcome.ok { st with reactor := ReactorPc.loop_test }
        | pending => Outcome.ok { st with reactor := ReactorPc.dispatching pending }
    | _ => Outcome.disabled
  | Label.reactor_callback accept_result ctl =>
    match st.reactor with
    | ReactorPc.dispatching (socket :: rest) =>
      let st := reactor_callback st socket accept_result ctl
      match rest with
      | [] => Outcome.ok { st with reactor := ReactorPc.loop_test }
      | _ => Outcome.ok { st with reactor := ReactorPc.dispatching rest }
    | _ => Outcome.disabled
  | Label.reactor_join =>
    match st.reactor with
    | ReactorPc.joining =>
      if st.workers.all (fun pc => decide (pc = WorkerPc.exited)) then
        Outcome.ok (run_server_shutdown st)
      else Outcome.disabled
    | _ => Outcome.disabled
  | Label.set_running b => Outcome.ok { st with server_running := b }

/-- Runs a schedule: the labels in order, stopping at the first that does not yield a state. -/
def run {Args : Type} (st : Server Args) : List Label → Outcome (Server Args)
  | [] => Outcome.ok st
  | l :: ls =>
    match step st l with
    | Outcome.ok st1 => run st1 ls
    | Outcome.disabled => Outcome.disabled
    | Outcome.pop_on_empty_queue => Outcome.pop_on_empty_queue

/-- What a returned `run_server` leaves behind: the returned value, the out-parameter `sock`,
and the caller-owned flag and trace. -/
structure Returned (Args : Type) where
  value : Bool
  sock : socket_type
  server_running : Bool
  trace : List (Call Args)
deriving DecidableEq, Repr

/-- The function `run_server`: startup, then the threads under `schedule`.  The result is
`none` when the schedule ends before `run_server` has returned (or is not a schedule of the
program). -/
def run_server {Args : Type} (o : StartupOracle) (server_port : Nat)
    (connection_queue_capacity worker_count : Nat) (callback_args : Args)
    (server_running : Bool) (schedule : List Label) : Option (Returned Args) :=
  match run_server_startup o server_port connection_queue_capacity worker_count callback_args
      server_running with
  | Startup.failed sock s1 => some ⟨false, sock, s1.server_running, s1.trace⟩
  | Startup.started st =>
    match run st schedule with
    | Outcome.ok st1 =>
      match st1.reactor with
      | ReactorPc.returned => some ⟨true, st1.sock, st1.server_running, st1.trace⟩
      | _ => none
    | _ => none

/-! ## `run_client` -/

/-- The fields of a `struct addrinfo` that `run_client` reads.  `ai_addr` stands for the
address bytes and their length; `ai_next` is the pointer to the next entry of the list, `none`
for `NULL`. -/
structure addrinfo where
  ai_family : Int
  ai_socktype : Int
  ai_protocol : Int
  ai_addr : Nat
  ai_next : Option Nat
deriving DecidableEq, Repr

/-- What the operating system and the C library hand to `run_client`: the result of
`getaddrinfo` and the pointer it stores in `addresses`, the `addrinfo` objects in memory with
the byte address of each, `sizeof(addrinfo)`, and for each entry what `socket` and `connect`
return when called with its fields. -/
structure ClientOracle where
  getaddrinfo_result : Int
  addresses : Option Nat
  memory : List (Nat × addrinfo)
  sizeof_addrinfo : Nat
  socket_result : addrinfo → Int
  connect_result : addrinfo → Int

/-- One call that leaves `run_client`.  `resolve_error` is the `fprintf` to `stderr` of the
resolution failure. -/
inductive ClientCall where
  | getaddrinfo (result : Int)
  | resolve_error (result : Int)
  | socket (ai_family ai_socktype ai_protocol : Int) (result : Int)
  | connect (fd : Int) (ai_addr : Nat) (result : Int)
  | perror (message : String)
  | shutdown (fd : Int)
  | freeaddrinfo
  | process_connection (sock : socket_type)
deriving DecidableEq, Repr

/-- Result of the `for` loop of `run_client`: it left through `break` with `sock`, it
dereferenced a pointer at which no `addrinfo` lives, or the fuel of the model ran out. -/
inductive ClientLoop where
  | broke (sock : socket_type) (trace : List ClientCall)
  | invalid_read (entry : Nat) (trace : List ClientCall)
  | out_of_fuel
deriving DecidableEq, Repr

/-- The `for` loop of `run_client`, at most `fuel` iterations from the pointer `entry`.  The
increment is `entry++`, which moves the pointer by `sizeof(addrinfo)` bytes and never yields
`NULL`. -/
def run_client_loop (o : ClientOracle) : Nat → Nat → List ClientCall → ClientLoop
  | 0, _, _ => ClientLoop.out_of_fuel
  | fuel + 1, entry, trace =>
    match o.memory.lookup entry with
    | none => ClientLoop.invalid_read entry trace
    | some e =>
      let sock : socket_type := ⟨o.socket_result e⟩
      let trace := trace ++ [ClientCall.socket e.ai_family e.ai_socktype e.ai_protocol sock.handle]
      if !sock.is_valid then
        run_client_loop o fuel (entry + o.sizeof_addrinfo)
          (trace ++ [ClientCall.perror ("run_client ERROR: Unable to open socket")])
      else
        let trace := trace ++ [ClientCall.connect sock.handle e.ai_addr (o.connect_result e)]
        if o.connect_result e ≠ 0 then
          run_client_loop o fuel (entry + o.sizeof_addrinfo)
            (trace ++ [ClientCall.perror ("run_client ERROR: Unable to connect"),
              ClientCall.shutdown sock.handle])
        else ClientLoop.broke sock trace

/-- Result of `run_client`: the returned value, or one of the two ways the loop of the model
does not complete. -/
inductive ClientOutcome where
  | returned (value : Bool) (trace : List ClientCall)
  | invalid_read (entry : Nat) (trace : List ClientCall)
  | out_of_fuel
deriving DecidableEq, Repr

/-- The function `run_client`. -/
def run_client (o : ClientOracle) (fuel : Nat) : ClientOutcome :=
  let trace := [ClientCall.getaddrinfo o.getaddrinfo_result]
  match o.addresses with
  | none => ClientOutcome.returned false (trace ++ [ClientCall.resolve_error o.getaddrinfo_result])
  | some entry =>
    if o.getaddrinfo_result ≠ 0 then
      ClientOutcome.returned false (trace ++ [ClientCall.resolve_error o.getaddrinfo_result])
    else
      match run_client_loop o fuel entry trace with
      | ClientLoop.broke sock trace =>
        ClientOutcome.returned true
          (trace ++ [ClientCall.freeaddrinfo, ClientCall.process_connection sock])
      | ClientLoop.invalid_read p trace => ClientOutcome.invalid_read p trace
      | ClientLoop.out_of_fuel => ClientOutcome.out_of_fuel

/-- The entry that the specification names: the first entry, in the linked order given by
`ai_next`, for which both `socket` and `connect` succeed.  At most `fuel` links are followed. -/
def spec_first_connectable (o : ClientOracle) : Nat → Option Nat → Option addrinfo
  | 0, _ => none
  | _ + 1, none => none
  | fuel + 1, some entry =>
    match o.memory.lookup entry with
    | none => none
    | some e =>
      if (⟨o.socket_result e⟩ : socket_type).is_valid ∧ o.connect_result e = 0 then some e
      else spec_first_connectable o fuel e.ai_next

/-! ## Vocabulary of the statements -/

/-- An operation on the ready queue: a push by the reactor or a pop by a worker. -/
inductive QueueOp where
  | push (h : socket_type)
  | pop
deriving DecidableEq, Repr

/-- Applies queue operations in order and collects the popped handles; `none` when a pop meets
an empty queue. -/
def run_queue_ops : array socket_type → List QueueOp → Option (array socket_type × List socket_type)
  | q, [] => some (q, [])
  | q, QueueOp.push h :: ops => run_queue_ops (q.add h) ops
  | q, QueueOp.pop :: ops =>
    match q.pop with
    | none => none
    | some (h, q1) =>
      match run_queue_ops q1 ops with
      | none => none
      | some (q2, outs) => some (q2, h :: outs)

/-- The handles pushed by a sequence of queue operations, in order. -/
def pushed_handles : List QueueOp → List socket_type
  | [] => []
  | QueueOp.push h :: ops => h :: pushed_handles ops
  | QueueOp.pop :: ops => pushed_handles ops

/-- Recognises an invocation of the user callback `process_message`. -/
def Call.is_process_message {Args : Type} : Call Args → Bool
  | Call.process_message _ _ => true
  | _ => false

/-- Recognises a re-arm, the `epoll_ctl(EPOLL_CTL_MOD)` of `update_socket`. -/
def Call.is_epoll_ctl_mod {Args : Type} : Call Args → Bool
  | Call.epoll_ctl_mod _ _ _ _ => true
  | _ => false

/-- Recognises a write to the flag `server_running`. -/
def Call.is_write_server_running {Args : Type} : Call Args → Bool
  | Call.write_server_running _ => true
  | _ => false

/-- Recognises the two calls that change the interest list of an epoll instance. -/
def Call.changes_registration {Args : Type} : Call Args → Bool
  | Call.epoll_ctl_add _ _ _ _ => true
  | Call.epoll_ctl_del _ _ _ => true
  | _ => false

/-- The three shapes of a step: it leaves registry and queue alone and makes no call that
changes a registration; or it is a worker iteration on a popped handle; or it is a reactor
callback on a ready socket. -/
inductive StepShape {Args : Type} (st : Server Args) (l : Label) (st1 : Server Args) : Prop where
  | quiet (cs : List (Call Args)) (hc : st1.connections = st.connections)
      (hq : st1.event_queue = st.event_queue) (ht : st1.trace = st.trace ++ cs)
      (hn : ∀ c ∈ cs, Call.changes_registration c = false)
  | worker (h : socket_type) (rest : array socket_type) (peek ctl : Int)
      (hpop : st.event_queue.pop = some (h, rest))
      (hc : st1.connections = (run_worker_body { st with event_queue := rest } h peek ctl).connections)
      (hq : st1.event_queue = rest)
      (ht : st1.trace = (run_worker_body { st with event_queue := rest } h peek ctl).trace)
  | callback (socket : socket_type) (accept_result ctl : Int)
      (hl : l = Label.reactor_callback accept_result ctl)
      (hc : st1.connections = (reactor_callback st socket accept_result ctl).connections)
      (hq : st1.event_queue = (reactor_callback st socket accept_result ctl).event_queue)
      (ht : st1.trace = (reactor_callback st socket accept_result ctl).trace)

/-- Effect of one call on the fact "descriptor `fd` has been registered with the epoll instance
`epfd` by a successful `add_socket<oneshot>` and has not been unregistered by a successful
`remove_socket` since"; `b` is the fact before the call. -/
def Call.registration_after {Args : Type} (epfd fd : Int) (oneshot : Bool) (b : Bool) :
    Call Args → Bool
  | Call.epoll_ctl_add e f m r => if e = epfd ∧ f = fd ∧ m = oneshot ∧ r ≠ -1 then true else b
  | Call.epoll_ctl_del e f r => if e = epfd ∧ f = fd ∧ r ≠ -1 then false else b
  | _ => b

/-- Folds `Call.registration_after` over a list of calls. -/
def registered_from {Args : Type} (epfd fd : Int) (oneshot : Bool) (b : Bool)
    (cs : List (Call Args)) : Bool :=
  cs.foldl (fun b c => c.registration_after epfd fd oneshot b) b

/-- At the end of `trace`, `fd` has been registered with `epfd` by a successful
`add_socket<oneshot>` and not been unregistered by a successful `remove_socket` since. -/
def registered {Args : Type} (trace : List (Call Args)) (epfd fd : Int) (oneshot : Bool) : Bool :=
  registered_from epfd fd oneshot false trace

/-- The results of the six startup calls lie in the ranges POSIX gives them: a descriptor or
-1 for `socket` and `epoll_create1`, and 0 or -1 for the other four. -/
def StartupOracle.posix (o : StartupOracle) : Prop :=
  -1 ≤ o.socket_result ∧ (o.setsockopt_result = 0 ∨ o.setsockopt_result = -1) ∧
  (o.bind_result = 0 ∨ o.bind_result = -1) ∧ (o.listen_result = 0 ∨ o.listen_result = -1) ∧
  -1 ≤ o.epoll_create1_result ∧ (o.epoll_ctl_result = 0 ∨ o.epoll_ctl_result = -1)

/-- Some startup step fails: opening the socket, `setsockopt`, `bind`, `listen`, the creation
of the notifier, or the registration of the listening socket reports an error (returns -1). -/
def StartupOracle.step_fails (o : StartupOracle) : Prop :=
  o.socket_result = -1 ∨ o.setsockopt_result = -1 ∨ o.bind_result = -1 ∨
  o.listen_result = -1 ∨ o.epoll_create1_result = -1 ∨ o.epoll_ctl_result = -1

/-- A schedule that ends a started server: the owner clears the flag, every worker evaluates
its loop test and returns, the reactor leaves its loop and joins. -/
def shutdown_schedule (worker_count : Nat) : List Label :=
  Label.set_running false ::
    ((List.range' 0 worker_count).map Label.worker_test ++ [Label.reactor_test, Label.reactor_join])

/-! ## Concrete inputs -/

/-- Startup results with every call succeeding: the listening socket is descriptor 3 and the
epoll instance descriptor 4. -/
def sample_oracle : StartupOracle := ⟨3, 0, 0, 0, 4, 0⟩

/-- The server started by `sample_oracle` on port 8080 with backlog 16 and one worker, the
flag `server_running` being true. -/
def sample_started : Server Nat :=
  { sock := ⟨3⟩, listener := ⟨4⟩, connections := ⟨[]⟩, event_queue := ⟨[]⟩,
    server_running := true, callback_args := 0, workers := [WorkerPc.loop_test],
    reactor := ReactorPc.loop_test,
    trace := [Call.socket 3, Call.setsockopt 3 0, Call.bind 3 8080 0, Call.listen 3 16 0,
      Call.epoll_create1 4, Call.epoll_ctl_add 4 3 false 0, Call.thread_start 0,
      Call.init_cv_notify_all] }

/-- A schedule in which connection 5 is accepted, the worker blocks in `cv.wait`, and
connection 5 becomes readable. -/
def sample_schedule : List Label :=
  [Label.reactor_test, Label.reactor_wait 1 [⟨3⟩], Label.reactor_callback 5 0,
   Label.worker_test 0,
   Label.reactor_test, Label.reactor_wait 1 [⟨5⟩], Label.reactor_callback 0 0]

/-- The state that `sample_schedule` reaches from `sample_started`. -/
def sample_ready : Server Nat :=
  { sock := ⟨3⟩, listener := ⟨4⟩, connections := ⟨[⟨5⟩]⟩, event_queue := ⟨[⟨5⟩]⟩,
    server_running := true, callback_args := 0, workers := [WorkerPc.waiting],
    reactor := ReactorPc.loop_test,
    trace := [Call.socket 3, Call.setsockopt 3 0, Call.bind 3 8080 0, Call.listen 3 16 0,
      Call.epoll_create1 4, Call.epoll_ctl_add 4 3 false 0, Call.thread_start 0,
      Call.init_cv_notify_all, Call.epoll_wait 4 1, Call.accept 3 5,
      Call.epoll_ctl_add 4 5 true 0, Call.epoll_wait 4 1, Call.cv_notify_one] }

/-- An address list of three entries whose linked order is not their order in memory: the
list starts at address 1000; that entry links to the entry at 2000, which links to the entry at
1048, directly behind the first (`sizeof(addrinfo)` is 48).  `connect` fails for the first
entry and succeeds for the other two. -/
def client_failing_input : ClientOracle :=
  { getaddrinfo_result := 0,
    addresses := some 1000,
    memory := [(1000, ⟨10, 1, 6, 1, some 2000⟩), (1048, ⟨2, 1, 6, 3, none⟩),
               (2000, ⟨2, 1, 6, 2, some 1048⟩)],
    sizeof_addrinfo := 48,
    socket_result := fun e => 4 + e.ai_addr,
    connect_result := fun e => if e.ai_addr = 1 then -1 else 0 }

/-- An address list of two entries allocated apart, at addresses 1000 and 2000; `connect`
fails for the first and succeeds for the second.  No `addrinfo` lives directly behind the
first entry. -/
def client_failing_input_apart : ClientOracle :=
  { getaddrinfo_result := 0,
    addresses := some 1000,
    memory := [(1000, ⟨10, 1, 6, 1, some 2000⟩), (2000, ⟨2, 1, 6, 2, none⟩)],
    sizeof_addrinfo := 48,
    socket_result := fun e => 4 + e.ai_addr,
    connect_result := fun e => if e.ai_addr = 1 then -1 else 0 }

/-! ## Concrete runs -/

theorem sample_started_eq :
    run_server_startup sample_oracle 8080 16 1 (0 : Nat) true = Startup.started sample_started := by
  decide

theorem sample_ready_eq : run sample_started sample_schedule = Outcome.ok sample_ready := by
  decide

/-! ## The ready queue -/

theorem run_queue_ops_fifo (ops : List QueueOp) :
    ∀ (q q1 : array socket_type) (outs : List socket_type),
      run_queue_ops q ops = some (q1, outs) → q.data ++ pushed_handles ops = outs ++ q1.data := by
  induction ops with
  | nil =>
    intro q q1 outs h
    simp [run_queue_ops] at h
    obtain ⟨rfl, rfl⟩ := h
    simp [pushed_handles]
  | cons op ops ih =>
    intro q q1 outs h
    cases op with
    | push x =>
      simp only [run_queue_ops] at h
      have := ih _ _ _ h
      simp only [array.add, List.append_assoc, List.singleton_append] at this
      simpa [pushed_handles] using this
    | pop =>
      simp only [run_queue_ops] at h
      cases hq : q.data with
      | nil => simp [array.pop, hq] at h
      | cons y ys =>
        simp only [array.pop, hq] at h
        cases hrec : run_queue_ops ⟨ys⟩ ops with
        | none => simp [hrec] at h
        | some r =>
          obtain ⟨q2, outs2⟩ := r
          simp only [hrec, Option.some.injEq, Prod.mk.injEq] at h
          obtain ⟨rfl, rfl⟩ := h
          have := ih _ _ _ hrec
          simp only [pushed_handles, List.cons_append]
          exact congrArg (List.cons y) this

/-- C2: the ready queue is first-in first-out.  For every starting queue and every sequence of
pushes and pops in which no pop meets an empty queue, the handles popped so far followed by the
handles still queued are exactly the handles initially queued followed by the pushed handles,
in push order; so each pop returns the earliest handle still queued.  In particular, after
pushing `a` and then `b` on the empty queue, the next pop returns `a` and leaves `b`. -/
theorem ready_queue_fifo (q q1 : array socket_type) (ops : List QueueOp)
    (outs : List socket_type) (a b : socket_type)
    (hrun : run_queue_ops q ops = some (q1, outs)) :
    q.data ++ pushed_handles ops = outs ++ q1.data ∧
    (∀ h rest, q1.pop = some (h, rest) → ∃ tail, q.data ++ pushed_handles ops = outs ++ h :: tail) ∧
    ((array.mk []).add a).add b = array.mk [a, b] ∧
    (((array.mk []).add a).add b).pop = some (a, array.mk [b]) := by
  have hfifo := run_queue_ops_fifo ops q q1 outs hrun
  refine ⟨hfifo, ?_, rfl, rfl⟩
  intro h rest hp
  cases hq : q1.data with
  | nil => simp [array.pop, hq] at hp
  | cons y ys =>
    simp only [array.pop, hq, Option.some.injEq, Prod.mk.injEq] at hp
    obtain ⟨rfl, _⟩ := hp
    exact ⟨ys, by rw [hfifo, hq]⟩

theorem ready_queue_fifo_witness :
    run_queue_ops (array.mk []) [QueueOp.push ⟨7⟩, QueueOp.push ⟨9⟩, QueueOp.pop, QueueOp.push ⟨4⟩,
        QueueOp.pop] = some (array.mk [⟨4⟩], [⟨7⟩, ⟨9⟩]) ∧
    ((array.mk ([] : List socket_type)).data ++ pushed_handles [QueueOp.push ⟨7⟩, QueueOp.push ⟨9⟩,
        QueueOp.pop, QueueOp.push ⟨4⟩, QueueOp.pop]
      = [⟨7⟩, ⟨9⟩] ++ (array.mk [(⟨4⟩ : socket_type)]).data) :=
  ⟨by decide,
   (ready_queue_fifo (array.mk []) (array.mk [⟨4⟩]) [QueueOp.push ⟨7⟩, QueueOp.push ⟨9⟩,
      QueueOp.pop, QueueOp.push ⟨4⟩, QueueOp.pop] [⟨7⟩, ⟨9⟩] ⟨1⟩ ⟨2⟩ (by decide)).1⟩

/-! ## One worker iteration -/

theorem step_worker_iteration {Args : Type} (st : Server Args) (i : Nat) (peek ctl : Int)
    (h : socket_type) (rest : array socket_type)
    (hw : st.workers[i]? = some WorkerPc.waiting) (hr : st.server_running = true)
    (hpop : st.event_queue.pop = some (h, rest)) :
    step st (Label.worker_iteration i peek ctl)
      = Outcome.ok ((run_worker_body { st with event_queue := rest } h peek ctl).set_worker
          i WorkerPc.loop_test) := by
  simp [step, hw, hr, hpop]

theorem mem_remove_keys (s : hash_set socket_type) (x h : socket_type) :
    x ∈ (s.remove h).keys ↔ x ∈ s.keys ∧ x ≠ h := by
  simp [hash_set.remove, List.mem_filter]

/-- C3: when the one-byte peek on the popped handle `h` returns 0, the worker iteration makes
exactly the calls `recv` (peek), `remove_socket(h)` and `shutdown(h)`, in this order: it does
not invoke `process_message` and does not re-arm.  Afterwards `h` is not a member of the
connection registry and membership of every other handle is unchanged. -/
theorem worker_peek_zero_closes_connection {Args : Type} (st : Server Args) (i : Nat) (ctl : Int)
    (h : socket_type) (rest : array socket_type)
    (hw : st.workers[i]? = some WorkerPc.waiting) (hr : st.server_running = true)
    (hpop : st.event_queue.pop = some (h, rest)) :
    ∃ st1 cs, step st (Label.worker_iteration i 0 ctl) = Outcome.ok st1 ∧
      st1.trace = st.trace ++ cs ∧
      cs = [Call.recv_peek h.handle 0] ++ (st.listener.remove_socket h ctl).2
            ++ [Call.shutdown h.handle] ∧
      Call.epoll_ctl_del st.listener.listener h.handle ctl ∈ cs ∧
      cs.countP Call.is_process_message = 0 ∧
      cs.countP Call.is_epoll_ctl_mod = 0 ∧
      h ∉ st1.connections.keys ∧
      (∀ x, x ≠ h → (x ∈ st1.connections.keys ↔ x ∈ st.connections.keys)) := by
  refine ⟨_, _, step_worker_iteration st i 0 ctl h rest hw hr hpop, ?_, rfl, ?_, ?_, ?_, ?_, ?_⟩
  · simp [run_worker_body, Server.calls, Server.set_worker]
  · by_cases hc : ctl = -1 <;> simp [socket_listener.remove_socket, hc]
  · by_cases hc : ctl = -1 <;>
      simp [socket_listener.remove_socket, hc, listener_error, Call.is_process_message]
  · by_cases hc : ctl = -1 <;>
      simp [socket_listener.remove_socket, hc, listener_error, Call.is_epoll_ctl_mod]
  · simp [run_worker_body, Server.calls, Server.set_worker, mem_remove_keys]
  · intro x hx
    simp [run_worker_body, Server.calls, Server.set_worker, mem_remove_keys, hx]

theorem worker_peek_zero_closes_connection_witness :
    sample_ready.workers[0]? = some WorkerPc.waiting ∧ sample_ready.server_running = true ∧
    sample_ready.event_queue.pop = some (⟨5⟩, ⟨[]⟩) ∧
    ∃ st1 cs, step sample_ready (Label.worker_iteration 0 0 0) = Outcome.ok st1 ∧
      st1.trace = sample_ready.trace ++ cs ∧
      cs = [Call.recv_peek 5 0] ++ (sample_ready.listener.remove_socket ⟨5⟩ 0).2
            ++ [Call.shutdown 5] ∧
      Call.epoll_ctl_del sample_ready.listener.listener 5 0 ∈ cs ∧
      cs.countP Call.is_process_message = 0 ∧
      cs.countP Call.is_epoll_ctl_mod = 0 ∧
      (⟨5⟩ : socket_type) ∉ st1.connections.keys ∧
      (∀ x, x ≠ (⟨5⟩ : socket_type) →
        (x ∈ st1.connections.keys ↔ x ∈ sample_ready.connections.keys)) :=
  ⟨by decide, by decide, by decide,
   worker_peek_zero_closes_connection sample_ready 0 0 ⟨5⟩ ⟨[]⟩ (by decide) (by decide)
     (by decide)⟩

/-- C4: when the one-byte peek on the popped handle `h` returns anything but 0, the worker
iteration invokes `process_message` exactly once, with `h` and the forwarded arguments, and
directly after it calls `update_socket<true>(h)`, whose `epoll_ctl(EPOLL_CTL_MOD)` with the
one-shot flag is the only re-arm of the iteration. -/
theorem worker_peek_nonzero_processes_then_rearms {Args : Type} (st : Server Args) (i : Nat)
    (peek ctl : Int) (h : socket_type) (rest : array socket_type)
    (hw : st.workers[i]? = some WorkerPc.waiting) (hr : st.server_running = true)
    (hpop : st.event_queue.pop = some (h, rest)) (hpeek : peek ≠ 0) :
    ∃ st1 post, step st (Label.worker_iteration i peek ctl) = Outcome.ok st1 ∧
      st1.trace = st.trace ++ [Call.recv_peek h.handle peek]
        ++ [Call.process_message h st.callback_args]
        ++ [Call.epoll_ctl_mod st.listener.listener h.handle true ctl] ++ post ∧
      post.countP Call.is_process_message = 0 ∧
      post.countP Call.is_epoll_ctl_mod = 0 ∧
      (st1.trace.drop st.trace.length).countP Call.is_process_message = 1 ∧
      (st1.trace.drop st.trace.length).countP Call.is_epoll_ctl_mod = 1 := by
  rw [step_worker_iteration st i peek ctl h rest hw hr hpop]
  by_cases hc : ctl = -1
  · refine ⟨_, [Call.perror
      ("socket_listener.update_socket ERROR: Failed to modify listen event"),
      Call.shutdown h.handle, Call.shutdown h.handle], rfl, ?_, ?_, ?_, ?_, ?_⟩ <;>
      simp [run_worker_body, Server.calls, Server.set_worker, hpeek, hc,
        socket_listener.update_socket, listener_error, Call.is_process_message,
        Call.is_epoll_ctl_mod]
  · refine ⟨_, [], rfl, ?_, ?_, ?_, ?_, ?_⟩ <;>
      simp [run_worker_body, Server.calls, Server.set_worker, hpeek, hc,
        socket_listener.update_socket, listener_error, Call.is_process_message,
        Call.is_epoll_ctl_mod]

theorem worker_peek_nonzero_processes_then_rearms_witness :
    sample_ready.workers[0]? = some WorkerPc.waiting ∧ sample_ready.server_running = true ∧
    sample_ready.event_queue.pop = some (⟨5⟩, ⟨[]⟩) ∧ (1 : Int) ≠ 0 ∧
    ∃ st1 post, step sample_ready (Label.worker_iteration 0 1 0) = Outcome.ok st1 ∧
      st1.trace = sample_ready.trace ++ [Call.recv_peek 5 1]
        ++ [Call.process_message ⟨5⟩ sample_ready.callback_args]
        ++ [Call.epoll_ctl_mod sample_ready.listener.listener 5 true 0] ++ post ∧
      post.countP Call.is_process_message = 0 ∧
      post.countP Call.is_epoll_ctl_mod = 0 ∧
      (st1.trace.drop sample_ready.trace.length).countP Call.is_process_message = 1 ∧
      (st1.trace.drop sample_ready.trace.length).countP Call.is_epoll_ctl_mod = 1 :=
  ⟨by decide, by decide, by decide, by decide,
   worker_peek_nonzero_processes_then_rearms sample_ready 0 1 0 ⟨5⟩ ⟨[]⟩ (by decide) (by decide)
     (by decide) (by decide)⟩

/-- C5: when the re-arm `update_socket<true>(h)` of a worker iteration fails, `h` is shut
down, the connection registry is exactly as before (so `h` is still a member if it was), the
ready queue is the one the pop left, the flag `server_running` keeps its value and is not
written, and the reactor stands where it stood. -/
theorem worker_rearm_failure_keeps_server {Args : Type} (st : Server Args) (i : Nat)
    (peek ctl : Int) (h : socket_type) (rest : array socket_type)
    (hw : st.workers[i]? = some WorkerPc.waiting) (hr : st.server_running = true)
    (hpop : st.event_queue.pop = some (h, rest)) (hpeek : peek ≠ 0)
    (hfail : (st.listener.update_socket true h ctl : Bool × List (Call Args)).1 = false) :
    ∃ st1, step st (Label.worker_iteration i peek ctl) = Outcome.ok st1 ∧
      Call.shutdown h.handle ∈ st1.trace.drop st.trace.length ∧
      st1.connections = st.connections ∧
      (h ∈ st.connections.keys → h ∈ st1.connections.keys) ∧
      st1.event_queue = rest ∧
      st1.server_running = st.server_running ∧
      (st1.trace.drop st.trace.length).countP Call.is_write_server_running = 0 ∧
      st1.reactor = st.reactor ∧
      st1.sock = st.sock ∧ st1.listener = st.listener := by
  have hc : ctl = -1 := by
    by_cases hc : ctl = -1
    · exact hc
    · simp [socket_listener.update_socket, hc] at hfail
  refine ⟨_, step_worker_iteration st i peek ctl h rest hw hr hpop, ?_⟩
  simp [run_worker_body, Server.calls, Server.set_worker, hpeek, hc,
    socket_listener.update_socket, listener_error, Call.is_write_server_running]

theorem worker_rearm_failure_keeps_server_witness :
    sample_ready.workers[0]? = some WorkerPc.waiting ∧ sample_ready.server_running = true ∧
    sample_ready.event_queue.pop = some (⟨5⟩, ⟨[]⟩) ∧ (1 : Int) ≠ 0 ∧
    (sample_ready.listener.update_socket true ⟨5⟩ (-1) : Bool × List (Call Nat)).1 = false ∧
    ∃ st1, step sample_ready (Label.worker_iteration 0 1 (-1)) = Outcome.ok st1 ∧
      Call.shutdown 5 ∈ st1.trace.drop sample_ready.trace.length ∧
      st1.connections = sample_ready.connections ∧
      st1.event_queue = ⟨[]⟩ ∧
      st1.server_running = true :=
  ⟨by decide, by decide, by decide, by decide, by decide,
   (worker_rearm_failure_keeps_server sample_ready 0 1 (-1) ⟨5⟩ ⟨[]⟩ (by decide) (by decide)
     (by decide) (by decide) (by decide)).elim
     (fun st1 h => ⟨st1, h.1, h.2.1, h.2.2.1, h.2.2.2.2.1, h.2.2.2.2.2.1⟩)⟩

/-! ## One reactor callback on the listening socket -/

theorem mem_add_keys (s : hash_set socket_type) (x h : socket_type) :
    x ∈ (s.add h).keys ↔ x ∈ s.keys ∨ x = h := by
  unfold hash_set.add
  split
  · constructor
    · intro hx; exact Or.inl hx
    · rintro (hx | rfl)
      · exact hx
      · assumption
  · simp

/-- C6: for a readiness event on the listening socket, if `accept` returns an invalid handle,
or `add_socket<true>` on the accepted connection fails, the connection registry and the ready
queue are unchanged and `server_running` keeps its value and is not written; in the second case
the accepted connection is shut down.  When both succeed the registry becomes the old registry
with the new connection added, so the registry changes only when both succeed. -/
theorem reactor_accept_failures_leave_state {Args : Type} (st : Server Args)
    (socket : socket_type) (accept_result ctl : Int)
    (hlisten : socket.handle = st.sock.handle) :
    ((socket_type.mk accept_result).is_valid = false ∨
        (st.listener.add_socket true ⟨accept_result⟩ ctl : Bool × List (Call Args)).1 = false →
      (reactor_callback st socket accept_result ctl).connections = st.connections ∧
      (reactor_callback st socket accept_result ctl).event_queue = st.event_queue ∧
      (reactor_callback st socket accept_result ctl).server_running = st.server_running ∧
      ((reactor_callback st socket accept_result ctl).trace.drop st.trace.length).countP
        Call.is_write_server_running = 0) ∧
    ((socket_type.mk accept_result).is_valid = true →
        (st.listener.add_socket true ⟨accept_result⟩ ctl : Bool × List (Call Args)).1 = false →
      Call.shutdown accept_result ∈
        (reactor_callback st socket accept_result ctl).trace.drop st.trace.length) ∧
    ((socket_type.mk accept_result).is_valid = true →
        (st.listener.add_socket true ⟨accept_result⟩ ctl : Bool × List (Call Args)).1 = true →
      (reactor_callback st socket accept_result ctl).connections
          = st.connections.add ⟨accept_result⟩ ∧
      (reactor_callback st socket accept_result ctl).event_queue = st.event_queue ∧
      (reactor_callback st socket accept_result ctl).server_running = st.server_running) ∧
    ((reactor_callback st socket accept_result ctl).connections ≠ st.connections →
      (socket_type.mk accept_result).is_valid = true ∧
      (st.listener.add_socket true ⟨accept_result⟩ ctl : Bool × List (Call Args)).1 = true) := by
  have hs : socket = ⟨st.sock.handle⟩ := by
    cases socket; simp_all
  by_cases hv : (0 : Int) ≤ accept_result <;> by_cases hc : ctl = -1 <;>
    simp [reactor_callback, hs, Server.calls, socket_type.is_valid, hv, hc,
      socket_listener.add_socket, network_error, listener_error, Call.is_write_server_running]

theorem reactor_accept_failures_leave_state_witness :
    (⟨3⟩ : socket_type).handle = sample_ready.sock.handle ∧
    (sample_ready.listener.add_socket true ⟨6⟩ (-1) : Bool × List (Call Nat)).1 = false ∧
    (reactor_callback sample_ready ⟨3⟩ 6 (-1)).connections = sample_ready.connections ∧
    (reactor_callback sample_ready ⟨3⟩ 6 (-1)).event_queue = sample_ready.event_queue ∧
    Call.shutdown 6 ∈ (reactor_callback sample_ready ⟨3⟩ 6 (-1)).trace.drop
      sample_ready.trace.length :=
  have h := reactor_accept_failures_leave_state sample_ready ⟨3⟩ 6 (-1) (by decide)
  ⟨by decide, by decide, (h.1 (Or.inr (by decide))).1, (h.1 (Or.inr (by decide))).2.1,
   h.2.1 (by decide) (by decide)⟩

/-! ## What one step can change -/

theorem run_worker_body_event_queue {Args : Type} (st : Server Args) (h : socket_type)
    (peek ctl : Int) : (run_worker_body st h peek ctl).event_queue = st.event_queue := by
  by_cases hp : peek = 0 <;> by_cases hc : ctl = -1 <;>
    simp [run_worker_body, Server.calls, hp, hc, socket_listener.update_socket]

theorem run_worker_body_fixed {Args : Type} (st : Server Args) (h : socket_type)
    (peek ctl : Int) :
    (run_worker_body st h peek ctl).sock = st.sock ∧
    (run_worker_body st h peek ctl).listener = st.listener := by
  by_cases hp : peek = 0 <;> by_cases hc : ctl = -1 <;>
    simp [run_worker_body, Server.calls, hp, hc, socket_listener.update_socket]

theorem reactor_callback_fixed {Args : Type} (st : Server Args) (socket : socket_type)
    (a ctl : Int) :
    (reactor_callback st socket a ctl).sock = st.sock ∧
    (reactor_callback st socket a ctl).listener = st.listener := by
  by_cases hs : socket = ⟨st.sock.handle⟩ <;> by_cases hv : (0 : Int) ≤ a <;>
    by_cases hc : ctl = -1 <;>
    simp [reactor_callback, Server.calls, hs, hv, hc, socket_type.is_valid,
      socket_listener.add_socket]

theorem step_fixed {Args : Type} (st st1 : Server Args) (l : Label)
    (h : step st l = Outcome.ok st1) : st1.sock = st.sock ∧ st1.listener = st.listener := by
  cases l with
  | worker_test i =>
    simp only [step] at h
    split at h
    · split at h <;> (cases h; simp [Server.set_worker])
    · cases h
  | worker_iteration i peek ctl =>
    simp only [step] at h
    split at h
    · split at h
      · cases h; simp [Server.set_worker]
      · split at h
        · cases h
        · cases h
          simpa [Server.set_worker] using run_worker_body_fixed _ _ peek ctl
    · cases h
  | reactor_test =>
    simp only [step] at h
    split at h
    · split at h <;> (cases h; simp [Server.calls])
    · cases h
  | reactor_wait n events =>
    simp only [step] at h
    split at h
    · split at h
      · cases h; simp [Server.calls]
      · split at h <;> (cases h; simp [Server.calls])
    · cases h
  | reactor_callback a ctl =>
    simp only [step] at h
    split at h
    · split at h <;> (cases h; simpa using reactor_callback_fixed _ _ a ctl)
    · cases h
  | reactor_join =>
    simp only [step] at h
    split at h
    · split at h
      · cases h; simp [run_server_shutdown, Server.calls]
      · cases h
    · cases h
  | set_running b =>
    simp only [step] at h
    cases h; simp

theorem step_shape {Args : Type} (st st1 : Server Args) (l : Label)
    (h : step st l = Outcome.ok st1) : StepShape st l st1 := by
  cases l with
  | worker_test i =>
    simp only [step] at h
    split at h
    · split at h <;>
        (cases h; exact StepShape.quiet [] rfl rfl (by simp [Server.set_worker]) (by simp))
    · cases h
  | worker_iteration i peek ctl =>
    simp only [step] at h
    split at h
    · split at h
      · cases h; exact StepShape.quiet [] rfl rfl (by simp [Server.set_worker]) (by simp)
      · split at h
        · cases h
        · next connection rest hpop =>
          cases h
          exact StepShape.worker connection rest peek ctl hpop rfl
            (by simp [Server.set_worker, run_worker_body_event_queue]) rfl
    · cases h
  | reactor_test =>
    simp only [step] at h
    split at h
    · split at h
      · cases h; exact StepShape.quiet [] rfl rfl (by simp) (by simp)
      · cases h
        exact StepShape.quiet [Call.cv_notify_all] rfl rfl (by simp [Server.calls])
          (by simp [Call.changes_registration])
    · cases h
  | reactor_wait n events =>
    simp only [step] at h
    split at h
    · split at h
      · cases h
        exact StepShape.quiet _ rfl rfl (by simp [Server.calls, List.append_assoc]; rfl)
          (by simp [listener_error, Call.changes_registration])
      · split at h <;>
          (cases h
           exact StepShape.quiet [Call.epoll_wait st.listener.listener n] rfl rfl
             (by simp [Server.calls]) (by simp [Call.changes_registration]))
    · cases h
  | reactor_callback a ctl =>
    simp only [step] at h
    split at h
    · next socket rest hpc =>
      split at h <;> (cases h; exact StepShape.callback socket a ctl rfl rfl rfl rfl)
    · cases h
  | reactor_join =>
    simp only [step] at h
    split at h
    · split at h
      · cases h
        refine StepShape.quiet _ rfl rfl
          (by simp [run_server_shutdown, Server.calls, cleanup_server_listener,
                cleanup_server_sock, cleanup_server, RunState.calls, List.append_assoc]; rfl) ?_
        intro c hc
        simp only [List.mem_append, List.mem_map, socket_listener.free, List.mem_singleton] at hc
        rcases hc with ⟨_, _, rfl⟩ | ⟨_, _, rfl⟩ | rfl | rfl <;> rfl
      · cases h
    · cases h
  | set_running b =>
    simp only [step] at h
    cases h
    exact StepShape.quiet [] rfl rfl (by simp) (by simp)

/-! ## Invariants of a started server -/

/-- Induction over a schedule: a property that holds at the start and is kept by every step
whose label satisfies `Q` holds at the end of every schedule whose labels satisfy `Q`. -/
theorem run_induction {Args : Type} (P : Server Args → Prop) (Q : Label → Prop)
    (hstep : ∀ st l st1, P st → Q l → step st l = Outcome.ok st1 → P st1) :
    ∀ (ls : List Label) (st st1 : Server Args), P st → (∀ l ∈ ls, Q l) →
      run st ls = Outcome.ok st1 → P st1 := by
  intro ls
  induction ls with
  | nil =>
    intro st st1 hP _ hrun
    simp only [run, Outcome.ok.injEq] at hrun
    exact hrun ▸ hP
  | cons l ls ih =>
    intro st st1 hP hQ hrun
    simp only [run] at hrun
    cases hs : step st l with
    | ok st2 =>
      rw [hs] at hrun
      exact ih st2 st1 (hstep st l st2 hP (hQ l (List.mem_cons_self _ _)) hs)
        (fun l1 h1 => hQ l1 (List.mem_cons_of_mem _ h1)) hrun
    | disabled => rw [hs] at hrun; cases hrun
    | pop_on_empty_queue => rw [hs] at hrun; cases hrun

theorem run_fixed {Args : Type} (ls : List Label) (st st1 : Server Args)
    (hrun : run st ls = Outcome.ok st1) : st1.sock = st.sock ∧ st1.listener = st.listener := by
  refine run_induction (fun s => s.sock = st.sock ∧ s.listener = st.listener) (fun _ => True)
    ?_ ls st st1 ⟨rfl, rfl⟩ (fun _ _ => trivial) hrun
  intro s l s1 hP _ hs
  have := step_fixed s s1 l hs
  exact ⟨this.1.trans hP.1, this.2.trans hP.2⟩

theorem socket_type_eq (a b : socket_type) (h : a.handle = b.handle) : a = b := by
  cases a; cases b; simp_all

theorem pop_mem {α : Type} (q rest : array α) (h : α) (hpop : q.pop = some (h, rest)) :
    h ∈ q.data ∧ ∀ x ∈ rest.data, x ∈ q.data := by
  cases hq : q.data with
  | nil => simp [array.pop, hq] at hpop
  | cons y ys =>
    simp only [array.pop, hq, Option.some.injEq, Prod.mk.injEq] at hpop
    obtain ⟨rfl, rfl⟩ := hpop
    exact ⟨List.mem_cons_self _ _, fun x hx => List.mem_cons_of_mem _ hx⟩

theorem run_worker_body_connections_subset {Args : Type} (st : Server Args) (h : socket_type)
    (peek ctl : Int) (x : socket_type)
    (hx : x ∈ (run_worker_body st h peek ctl).connections.keys) : x ∈ st.connections.keys := by
  by_cases hp : peek = 0 <;> by_cases hc : ctl = -1 <;>
    simp [run_worker_body, Server.calls, hp, hc, socket_listener.update_socket,
      mem_remove_keys] at hx <;> simp [hx]

theorem reactor_callback_connections {Args : Type} (st : Server Args) (socket : socket_type)
    (a ctl : Int) (x : socket_type)
    (hx : x ∈ (reactor_callback st socket a ctl).connections.keys) :
    x ∈ st.connections.keys ∨ (x = ⟨a⟩ ∧ ctl ≠ -1) := by
  by_cases hs : socket = ⟨st.sock.handle⟩ <;> by_cases hv : (0 : Int) ≤ a <;>
    by_cases hc : ctl = -1 <;>
    simp [reactor_callback, Server.calls, hs, hv, hc, socket_type.is_valid,
      socket_listener.add_socket, mem_add_keys] at hx <;> simp [hx, hc]

theorem reactor_callback_event_queue {Args : Type} (st : Server Args) (socket : socket_type)
    (a ctl : Int) (x : socket_type)
    (hx : x ∈ (reactor_callback st socket a ctl).event_queue.data) :
    x ∈ st.event_queue.data ∨ (x = socket ∧ socket ≠ st.sock) := by
  have hsock : (⟨st.sock.handle⟩ : socket_type) = st.sock := rfl
  by_cases hs : socket = st.sock
  · left
    by_cases hv : (0 : Int) ≤ a <;> by_cases hc : ctl = -1 <;>
      simpa [reactor_callback, Server.calls, hs, hv, hc, socket_type.is_valid,
        socket_listener.add_socket] using hx
  · simp only [reactor_callback, hsock, hs, if_false, Server.calls, array.add,
      List.mem_append, List.mem_singleton] at hx
    rcases hx with hx | hx
    · exact Or.inl hx
    · exact Or.inr ⟨hx, hs⟩

/-- The listening socket is never pushed on the ready queue: this step invariant needs no
assumption on `accept`. -/
theorem step_queue_excludes_listening {Args : Type} (st st1 : Server Args) (l : Label)
    (hq : st.sock ∉ st.event_queue.data) (hs : step st l = Outcome.ok st1) :
    st1.sock ∉ st1.event_queue.data := by
  rw [(step_fixed st st1 l hs).1]
  cases step_shape st st1 l hs with
  | quiet cs hc hq1 ht hn => rw [hq1]; exact hq
  | worker h rest peek ctl hpop hc hq1 ht =>
    rw [hq1]
    exact fun hm => hq ((pop_mem _ _ _ hpop).2 _ hm)
  | callback socket a ctl hl hc hq1 ht =>
    rw [hq1]
    intro hm
    rcases reactor_callback_event_queue st socket a ctl _ hm with h1 | ⟨h1, h2⟩
    · exact hq h1
    · exact h2 h1.symm

theorem registered_append {Args : Type} (tr cs : List (Call Args)) (epfd fd : Int) (m : Bool) :
    registered (tr ++ cs) epfd fd m = registered_from epfd fd m (registered tr epfd fd m) cs := by
  simp [registered, registered_from, List.foldl_append]

theorem registered_from_quiet {Args : Type} (epfd fd : Int) (m : Bool) (cs : List (Call Args)) :
    ∀ b, (∀ c ∈ cs, Call.changes_registration c = false) → registered_from epfd fd m b cs = b := by
  induction cs with
  | nil => intro b _; rfl
  | cons c cs ih =>
    intro b hn
    have hc := hn c (List.mem_cons_self _ _)
    have hb : c.registration_after epfd fd m b = b := by
      cases c <;> first | rfl | simp [Call.changes_registration] at hc
    simp only [registered_from, List.foldl_cons, hb]
    exact ih b (fun c1 h1 => hn c1 (List.mem_cons_of_mem _ h1))

theorem run_worker_body_trace {Args : Type} (st : Server Args) (h : socket_type)
    (peek ctl : Int) :
    ∃ cs, (run_worker_body st h peek ctl).trace = st.trace ++ cs ∧
      ∀ (epfd fd : Int) (m b : Bool), (peek ≠ 0 ∨ fd ≠ h.handle) →
        registered_from epfd fd m b cs = b := by
  by_cases hp : peek = 0 <;> by_cases hc : ctl = -1
  · refine ⟨[Call.recv_peek h.handle peek, Call.epoll_ctl_del st.listener.listener h.handle ctl,
      Call.perror ("socket_listener.remove_socket ERROR: Failed to remove listen event"),
      Call.shutdown h.handle], ?_, ?_⟩
    · simp [run_worker_body, Server.calls, hp, hc, socket_listener.remove_socket, listener_error]
    · intro epfd fd m b hne
      simp [registered_from, Call.registration_after, hc]
  · refine ⟨[Call.recv_peek h.handle peek, Call.epoll_ctl_del st.listener.listener h.handle ctl,
      Call.shutdown h.handle], ?_, ?_⟩
    · simp [run_worker_body, Server.calls, hp, hc, socket_listener.remove_socket]
    · intro epfd fd m b hne
      have hfd : ¬ h.handle = fd := fun e => by simp [hp, e] at hne
      simp [registered_from, Call.registration_after, hfd]
  · refine ⟨[Call.recv_peek h.handle peek, Call.process_message h st.callback_args,
      Call.epoll_ctl_mod st.listener.listener h.handle true ctl,
      Call.perror ("socket_listener.update_socket ERROR: Failed to modify listen event"),
      Call.shutdown h.handle, Call.shutdown h.handle], ?_, ?_⟩
    · simp [run_worker_body, Server.calls, hp, hc, socket_listener.update_socket, listener_error]
    · intro epfd fd m b _
      simp [registered_from, Call.registration_after]
  · refine ⟨[Call.recv_peek h.handle peek, Call.process_message h st.callback_args,
      Call.epoll_ctl_mod st.listener.listener h.handle true ctl], ?_, ?_⟩
    · simp [run_worker_body, Server.calls, hp, hc, socket_listener.update_socket]
    · intro epfd fd m b _
      simp [registered_from, Call.registration_after]

theorem run_worker_body_connections_ne {Args : Type} (st : Server Args) (h : socket_type)
    (peek ctl : Int) (x : socket_type)
    (hx : x ∈ (run_worker_body st h peek ctl).connections.keys) :
    peek ≠ 0 ∨ x.handle ≠ h.handle := by
  by_cases hp : peek = 0
  · right
    have : x ≠ h := by
      simp [run_worker_body, Server.calls, hp, mem_remove_keys] at hx
      exact hx.2
    intro e
    apply this
    cases x; cases h; simp_all
  · exact Or.inl hp

theorem reactor_callback_trace {Args : Type} (st : Server Args) (socket : socket_type)
    (a ctl : Int) :
    ∃ cs, (reactor_callback st socket a ctl).trace = st.trace ++ cs ∧
      (∀ (epfd fd : Int) (m : Bool), registered_from epfd fd m true cs = true) ∧
      (∀ (fd : Int) (b : Bool), registered_from st.listener.listener fd false b cs = b) ∧
      (∀ x, x ∈ (reactor_callback st socket a ctl).connections.keys → x ∉ st.connections.keys →
        ∀ b, registered_from st.listener.listener x.handle true b cs = true) ∧
      (∀ (epfd fd : Int) (m b : Bool), fd ≠ a → registered_from epfd fd m b cs = b) := by
  by_cases hs : socket = ⟨st.sock.handle⟩
  · by_cases hv : (0 : Int) ≤ a
    · by_cases hc : ctl = -1
      · refine ⟨[Call.accept st.sock.handle a, Call.epoll_ctl_add st.listener.listener a true ctl,
          Call.perror ("socket_listener.add_socket ERROR: Failed to listen to socket"),
          Call.shutdown a], ?_, ?_, ?_, ?_, ?_⟩
        · simp [reactor_callback, Server.calls, hs, hv, hc, socket_type.is_valid,
            socket_listener.add_socket, listener_error]
        · intro epfd fd m
          simp [registered_from, Call.registration_after, hc]
        · intro fd b
          simp [registered_from, Call.registration_after]
        · intro x hx hnx
          simp [reactor_callback, Server.calls, hs, hv, hc, socket_type.is_valid,
            socket_listener.add_socket] at hx
          exact absurd hx hnx
        · intro epfd fd m b hne
          have hfd : ¬ a = fd := fun e => hne e.symm
          simp [registered_from, Call.registration_after, hfd]
      · refine ⟨[Call.accept st.sock.handle a, Call.epoll_ctl_add st.listener.listener a true ctl],
          ?_, ?_, ?_, ?_, ?_⟩
        · simp [reactor_callback, Server.calls, hs, hv, hc, socket_type.is_valid,
            socket_listener.add_socket]
        · intro epfd fd m
          simp [registered_from, Call.registration_after]
        · intro fd b
          simp [registered_from, Call.registration_after]
        · intro x hx hnx b
          simp [reactor_callback, Server.calls, hs, hv, hc, socket_type.is_valid,
            socket_listener.add_socket, mem_add_keys] at hx
          rcases hx with hx | rfl
          · exact absurd hx hnx
          · simp [registered_from, Call.registration_after, hc]
        · intro epfd fd m b hne
          have hfd : ¬ a = fd := fun e => hne e.symm
          simp [registered_from, Call.registration_after, hfd]
    · refine ⟨[Call.accept st.sock.handle a,
        Call.perror ("run_server ERROR: Error establishing connection with client")], ?_, ?_, ?_, ?_, ?_⟩
      · simp [reactor_callback, Server.calls, hs, hv, socket_type.is_valid, network_error]
      · intro epfd fd m
        simp [registered_from, Call.registration_after]
      · intro fd b
        simp [registered_from, Call.registration_after]
      · intro x hx hnx
        simp [reactor_callback, Server.calls, hs, hv, socket_type.is_valid] at hx
        exact absurd hx hnx
      · intro epfd fd m b _
        simp [registered_from, Call.registration_after]
  · refine ⟨[Call.cv_notify_one], ?_, ?_, ?_, ?_, ?_⟩
    · simp [reactor_callback, Server.calls, hs]
    · intro epfd fd m
      simp [registered_from, Call.registration_after]
    · intro fd b
      simp [registered_from, Call.registration_after]
    · intro x hx hnx
      simp [reactor_callback, Server.calls, hs] at hx
      exact absurd hx hnx
    · intro epfd fd m b _
      simp [registered_from, Call.registration_after]

/-- A successful startup: every startup call succeeded, and the started server is the
following state. -/
theorem run_server_startup_started {Args : Type} (o : StartupOracle)
    (server_port connection_queue_capacity worker_count : Nat) (callback_args : Args)
    (server_running : Bool) (st : Server Args)
    (h : run_server_startup o server_port connection_queue_capacity worker_count callback_args
      server_running = Startup.started st) :
    (0 ≤ o.socket_result ∧ o.setsockopt_result = 0 ∧ o.bind_result = 0 ∧ o.listen_result = 0 ∧
      o.epoll_create1_result ≠ -1 ∧ o.epoll_ctl_result ≠ -1) ∧
    st = { sock := ⟨o.socket_result⟩,
           listener := ⟨o.epoll_create1_result⟩,
           connections := ⟨[]⟩,
           event_queue := ⟨[]⟩,
           server_running := server_running,
           callback_args := callback_args,
           workers := List.replicate worker_count WorkerPc.loop_test,
           reactor := ReactorPc.loop_test,
           trace := [Call.socket o.socket_result,
             Call.setsockopt o.socket_result o.setsockopt_result,
             Call.bind o.socket_result server_port o.bind_result,
             Call.listen o.socket_result connection_queue_capacity o.listen_result,
             Call.epoll_create1 o.epoll_create1_result,
             Call.epoll_ctl_add o.epoll_create1_result o.socket_result false o.epoll_ctl_result]
             ++ (List.range worker_count).map Call.thread_start ++ [Call.init_cv_notify_all] } := by
  by_cases h1 : 0 ≤ o.socket_result
  · by_cases h2 : o.setsockopt_result = 0
    · by_cases h3 : o.bind_result = 0
      · by_cases h4 : o.listen_result = 0
        · by_cases h5 : o.epoll_create1_result = -1
          · simp [run_server_startup, socket_type.is_valid, h1, h2, h3, h4, h5, init] at h
          · by_cases h6 : o.epoll_ctl_result = -1
            · simp [run_server_startup, socket_type.is_valid, h1, h2, h3, h4, h5, h6, init,
                socket_listener.add_socket] at h
            · simp [run_server_startup, socket_type.is_valid, h1, h2, h3, h4, h5, h6, init,
                socket_listener.add_socket, RunState.calls] at h
              exact ⟨⟨h1, h2, h3, h4, h5, h6⟩, by rw [← h]; simp [h2, h3, h4]⟩
        · simp [run_server_startup, socket_type.is_valid, h1, h2, h3, h4] at h
      · simp [run_server_startup, socket_type.is_valid, h1, h2, h3] at h
    · simp [run_server_startup, socket_type.is_valid, h1, h2] at h
  · simp [run_server_startup, socket_type.is_valid, h1] at h

/-- C7 (invariant I3): in every state reached from a successful startup by a schedule of
reactor and worker steps in which `accept` never returns the handle of the listening socket,
the listening socket is neither a member of the connection registry nor an element of the ready
queue. -/
theorem listening_socket_not_in_registry_or_queue {Args : Type} (o : StartupOracle)
    (server_port connection_queue_capacity worker_count : Nat) (callback_args : Args)
    (server_running : Bool) (st0 st : Server Args) (schedule : List Label)
    (hstart : run_server_startup o server_port connection_queue_capacity worker_count
      callback_args server_running = Startup.started st0)
    (hrun : run st0 schedule = Outcome.ok st)
    (hfresh : ∀ a ctl, Label.reactor_callback a ctl ∈ schedule → a ≠ st0.sock.handle) :
    st.sock = st0.sock ∧ st.sock ∉ st.connections.keys ∧ st.sock ∉ st.event_queue.data := by
  refine run_induction
    (fun s => s.sock = st0.sock ∧ s.sock ∉ s.connections.keys ∧ s.sock ∉ s.event_queue.data)
    (fun l => ∀ a ctl, l = Label.reactor_callback a ctl → a ≠ st0.sock.handle)
    ?_ schedule st0 st ?_ (fun l hl a ctl e => hfresh a ctl (e ▸ hl)) hrun
  · intro s l s1 hP hQ hs
    obtain ⟨hsock, hconn, hqueue⟩ := hP
    have hfix := (step_fixed s s1 l hs).1
    refine ⟨hfix.trans hsock, ?_, step_queue_excludes_listening s s1 l hqueue hs⟩
    rw [hfix]
    cases step_shape s s1 l hs with
    | quiet cs hc hq1 ht hn => rw [hc]; exact hconn
    | worker h rest peek ctl hpop hc hq1 ht =>
      rw [hc]
      exact fun hm => hconn
        (run_worker_body_connections_subset { s with event_queue := rest } h peek ctl _ hm)
    | callback socket a ctl hl hc hq1 ht =>
      rw [hc]
      intro hm
      rcases reactor_callback_connections s socket a ctl _ hm with h1 | ⟨h1, _⟩
      · exact hconn h1
      · apply hQ a ctl hl
        rw [← hsock, h1]
  · obtain ⟨_, rfl⟩ := run_server_startup_started o server_port connection_queue_capacity
      worker_count callback_args server_running st0 hstart
    simp

theorem listening_socket_not_in_registry_or_queue_witness :
    run_server_startup sample_oracle 8080 16 1 (0 : Nat) true = Startup.started sample_started ∧
    run sample_started sample_schedule = Outcome.ok sample_ready ∧
    (∀ a ctl, Label.reactor_callback a ctl ∈ sample_schedule → a ≠ sample_started.sock.handle) ∧
    sample_ready.sock = sample_started.sock ∧
    sample_ready.sock ∉ sample_ready.connections.keys ∧
    sample_ready.sock ∉ sample_ready.event_queue.data :=
  have hfresh : ∀ a ctl, Label.reactor_callback a ctl ∈ sample_schedule →
      a ≠ sample_started.sock.handle := by
    intro a ctl hm
    simp [sample_schedule] at hm
    rcases hm with ⟨rfl, _⟩ | ⟨rfl, _⟩ <;> decide
  ⟨sample_started_eq, sample_ready_eq, hfresh,
   listening_socket_not_in_registry_or_queue sample_oracle 8080 16 1 (0 : Nat) true
     sample_started sample_ready sample_schedule sample_started_eq sample_ready_eq hfresh⟩

/-- When `accept` never returns the handle of the listening socket, the listening socket is
never registered in one-shot mode. -/
theorem listening_socket_never_oneshot {Args : Type} (o : StartupOracle)
    (server_port connection_queue_capacity worker_count : Nat) (callback_args : Args)
    (server_running : Bool) (st0 st : Server Args) (schedule : List Label)
    (hstart : run_server_startup o server_port connection_queue_capacity worker_count
      callback_args server_running = Startup.started st0)
    (hrun : run st0 schedule = Outcome.ok st)
    (hfresh : ∀ a ctl, Label.reactor_callback a ctl ∈ schedule → a ≠ st0.sock.handle) :
    registered st.trace st.listener.listener st.sock.handle true = false := by
  have key := run_induction
    (fun s : Server Args => s.sock = st0.sock ∧
      registered s.trace s.listener.listener s.sock.handle true = false ∧
      s.sock ∉ s.event_queue.data)
    (fun l => ∀ a ctl, l = Label.reactor_callback a ctl → a ≠ st0.sock.handle)
    ?_ schedule st0 st ?_ (fun l hl a ctl e => hfresh a ctl (e ▸ hl)) hrun
  · exact key.2.1
  · intro s l s1 hP hQ hs
    obtain ⟨hsock, hreg, hqueue⟩ := hP
    obtain ⟨hfs, hfl⟩ := step_fixed s s1 l hs
    refine ⟨hfs.trans hsock, ?_, step_queue_excludes_listening s s1 l hqueue hs⟩
    rw [hfl, hfs]
    cases step_shape s s1 l hs with
    | quiet cs hc hq ht hn =>
      rw [ht, registered_append, registered_from_quiet _ _ _ cs _ hn]
      exact hreg
    | worker h rest peek ctl hpop hc hq ht =>
      obtain ⟨cs, hcs, hkeep⟩ := run_worker_body_trace { s with event_queue := rest } h peek ctl
      have hne : s.sock.handle ≠ h.handle := by
        intro e
        apply hqueue
        have : s.sock = h := socket_type_eq _ _ e
        rw [this]
        exact (pop_mem _ _ _ hpop).1
      rw [ht, hcs, registered_append, hkeep _ _ _ _ (Or.inr hne)]
      exact hreg
    | callback socket a ctl hl hc hq ht =>
      obtain ⟨cs, hcs, _, _, _, hother⟩ := reactor_callback_trace s socket a ctl
      have hne : s.sock.handle ≠ a := fun e => hQ a ctl hl (by rw [← hsock, e])
      rw [ht, hcs, registered_append, hother _ _ _ _ hne]
      exact hreg
  · obtain ⟨hok, rfl⟩ := run_server_startup_started o server_port connection_queue_capacity
      worker_count callback_args server_running st0 hstart
    refine ⟨rfl, ?_, by simp⟩
    rw [registered_append, registered_append]
    rw [registered_from_quiet _ _ _ [Call.init_cv_notify_all] _ (by simp [Call.changes_registration]),
      registered_from_quiet _ _ _ _ _ (by simp [Call.changes_registration])]
    simp [registered, registered_from, Call.registration_after]

/-- C8 (invariant I2): in every state reached from a successful startup by a schedule of
reactor and worker steps, every member of the connection registry has been registered with the
notifier by a successful `add_socket<true>` and not been unregistered by a successful
`remove_socket` since, and the listening socket has been registered by a successful
`add_socket<false>` and not been unregistered since.  When moreover `accept` never returns the
handle of the listening socket, the listening socket is not registered in one-shot mode. -/
theorem registry_members_registered_oneshot {Args : Type} (o : StartupOracle)
    (server_port connection_queue_capacity worker_count : Nat) (callback_args : Args)
    (server_running : Bool) (st0 st : Server Args) (schedule : List Label)
    (hstart : run_server_startup o server_port connection_queue_capacity worker_count
      callback_args server_running = Startup.started st0)
    (hrun : run st0 schedule = Outcome.ok st) :
    (∀ h ∈ st.connections.keys, registered st.trace st.listener.listener h.handle true = true) ∧
    registered st.trace st.listener.listener st.sock.handle false = true ∧
    ((∀ a ctl, Label.reactor_callback a ctl ∈ schedule → a ≠ st0.sock.handle) →
      registered st.trace st.listener.listener st.sock.handle true = false) := by
  have key := run_induction
    (fun s : Server Args =>
      (∀ h ∈ s.connections.keys, registered s.trace s.listener.listener h.handle true = true) ∧
      registered s.trace s.listener.listener s.sock.handle false = true ∧
      s.sock ∉ s.event_queue.data)
    (fun _ => True) ?_ schedule st0 st ?_ (fun _ _ => trivial) hrun
  · exact ⟨key.1, key.2.1, listening_socket_never_oneshot o server_port
      connection_queue_capacity worker_count callback_args server_running st0 st schedule
      hstart hrun⟩
  · intro s l s1 hP _ hs
    obtain ⟨hconn, hsock, hqueue⟩ := hP
    have hq1 := step_queue_excludes_listening s s1 l hqueue hs
    obtain ⟨hfs, hfl⟩ := step_fixed s s1 l hs
    refine ⟨?_, ?_, hq1⟩
    · rw [hfl]
      cases step_shape s s1 l hs with
      | quiet cs hc hq ht hn =>
        intro h hm
        rw [ht, registered_append, registered_from_quiet _ _ _ cs _ hn]
        exact hconn h (hc ▸ hm)
      | worker h rest peek ctl hpop hc hq ht =>
        intro x hm
        rw [hc] at hm
        obtain ⟨cs, hcs, hkeep⟩ := run_worker_body_trace { s with event_queue := rest } h peek ctl
        rw [ht, hcs, registered_append,
          hkeep _ _ _ _ (run_worker_body_connections_ne _ h peek ctl x hm)]
        exact hconn x
          (run_worker_body_connections_subset { s with event_queue := rest } h peek ctl x hm)
      | callback socket a ctl hl hc hq ht =>
        intro x hm
        rw [hc] at hm
        obtain ⟨cs, hcs, hmono, _, hnew, _⟩ := reactor_callback_trace s socket a ctl
        rw [ht, hcs, registered_append]
        by_cases hx : x ∈ s.connections.keys
        · rw [hconn x hx]; exact hmono _ _ _
        · exact hnew x hm hx _
    · rw [hfl, hfs]
      cases step_shape s s1 l hs with
      | quiet cs hc hq ht hn =>
        rw [ht, registered_append, registered_from_quiet _ _ _ cs _ hn]
        exact hsock
      | worker h rest peek ctl hpop hc hq ht =>
        obtain ⟨cs, hcs, hkeep⟩ := run_worker_body_trace { s with event_queue := rest } h peek ctl
        have hne : s.sock.handle ≠ h.handle := by
          intro e
          apply hqueue
          have : s.sock = h := socket_type_eq _ _ e
          rw [this]
          exact (pop_mem _ _ _ hpop).1
        rw [ht, hcs, registered_append, hkeep _ _ _ _ (Or.inr hne)]
        exact hsock
      | callback socket a ctl hl hc hq ht =>
        obtain ⟨cs, hcs, _, hlevel, _, _⟩ := reactor_callback_trace s socket a ctl
        rw [ht, hcs, registered_append, hlevel]
        exact hsock
  · obtain ⟨hok, rfl⟩ := run_server_startup_started o server_port connection_queue_capacity
      worker_count callback_args server_running st0 hstart
    refine ⟨by simp, ?_, by simp⟩
    rw [registered_append, registered_append]
    rw [registered_from_quiet _ _ _ [Call.init_cv_notify_all] _ (by simp [Call.changes_registration]),
      registered_from_quiet _ _ _ _ _ (by simp [Call.changes_registration])]
    simp [registered, registered_from, Call.registration_after, hok.2.2.2.2.2]

theorem registry_members_registered_oneshot_witness :
    run_server_startup sample_oracle 8080 16 1 (0 : Nat) true = Startup.started sample_started ∧
    run sample_started sample_schedule = Outcome.ok sample_ready ∧
    (∀ h ∈ sample_ready.connections.keys,
      registered sample_ready.trace sample_ready.listener.listener h.handle true = true) ∧
    registered sample_ready.trace sample_ready.listener.listener sample_ready.sock.handle false
      = true ∧
    registered sample_ready.trace sample_ready.listener.listener sample_ready.sock.handle true
      = false :=
  have hfresh : ∀ a ctl, Label.reactor_callback a ctl ∈ sample_schedule →
      a ≠ sample_started.sock.handle := by
    intro a ctl hm
    simp [sample_schedule] at hm
    rcases hm with ⟨rfl, _⟩ | ⟨rfl, _⟩ <;> decide
  have h := registry_members_registered_oneshot sample_oracle 8080 16 1 (0 : Nat) true
    sample_started sample_ready sample_schedule sample_started_eq sample_ready_eq
  ⟨sample_started_eq, sample_ready_eq, h.1, h.2.1, h.2.2 hfresh⟩

/-! ## Return value of `run_server` -/

theorem replicate_append_get {α : Type} (k m : Nat) (a b : α) :
    (List.replicate k a ++ List.replicate (m + 1) b)[k]? = some b := by
  induction k with
  | zero => simp [List.replicate_succ]
  | succ k ih => simpa [List.replicate_succ] using ih

theorem replicate_append_set {α : Type} (k m : Nat) (a b : α) :
    (List.replicate k a ++ List.replicate (m + 1) b).set k a
      = List.replicate (k + 1) a ++ List.replicate m b := by
  induction k with
  | zero => simp [List.replicate_succ]
  | succ k ih =>
    rw [List.replicate_succ, List.cons_append, List.set_cons_succ, ih]
    simp [List.replicate_succ]

theorem run_worker_tests_exit {Args : Type} (m : Nat) :
    ∀ (k : Nat) (s : Server Args) (tail : List Label), s.server_running = false →
      s.workers = List.replicate k WorkerPc.exited ++ List.replicate m WorkerPc.loop_test →
      run s ((List.range' k m).map Label.worker_test ++ tail)
        = run { s with workers := List.replicate (k + m) WorkerPc.exited } tail := by
  induction m with
  | zero =>
    intro k s tail _ hw
    have : { s with workers := List.replicate (k + 0) WorkerPc.exited } = s := by
      cases s; simp_all
    rw [this]
    rfl
  | succ m ih =>
    intro k s tail hr hw
    have hget : s.workers[k]? = some WorkerPc.loop_test := by
      rw [hw]; exact replicate_append_get k m _ _
    have hstep : step s (Label.worker_test k) = Outcome.ok (s.set_worker k WorkerPc.exited) := by
      simp [step, hget, hr]
    have hset : (s.set_worker k WorkerPc.exited).workers
        = List.replicate (k + 1) WorkerPc.exited ++ List.replicate m WorkerPc.loop_test := by
      simp only [Server.set_worker, hw]
      exact replicate_append_set k m _ _
    rw [List.range'_succ, List.map_cons, List.cons_append]
    simp only [run, hstep]
    rw [ih (k + 1) (s.set_worker k WorkerPc.exited) tail (by simp [Server.set_worker, hr]) hset]
    simp [Server.set_worker, Nat.add_assoc, Nat.add_comm 1 m]

theorem run_shutdown_schedule {Args : Type} (st : Server Args) (worker_count : Nat)
    (hw : st.workers = List.replicate worker_count WorkerPc.loop_test)
    (hpc : st.reactor = ReactorPc.loop_test) :
    ∃ st1, run st (shutdown_schedule worker_count) = Outcome.ok st1 ∧
      st1.reactor = ReactorPc.returned := by
  have h1 := run_worker_tests_exit worker_count 0 { st with server_running := false }
    [Label.reactor_test, Label.reactor_join] rfl (by simp [hw])
  simp only [shutdown_schedule, run, step]
  rw [h1]
  simp [run, step, hpc, Server.calls, run_server_shutdown]

/-- C1: with startup results in their POSIX ranges, `run_server` under any schedule returns
false whenever a startup step fails, and then `server_running` has been set to false and
`init_cv.notify_all()` is the last call made; it returns false only then.  When every startup
step succeeds, every schedule under which the reactor leaves its loop and joins the workers
makes `run_server` return true, and such a schedule exists for every number of workers. -/
theorem run_server_returns_false_iff_startup_fails {Args : Type} (o : StartupOracle)
    (server_port connection_queue_capacity worker_count : Nat) (callback_args : Args)
    (server_running : Bool) (schedule : List Label) (hposix : o.posix) :
    (o.step_fails →
      ∃ r, run_server o server_port connection_queue_capacity worker_count callback_args
          server_running schedule = some r ∧
        r.value = false ∧ r.server_running = false ∧
        Call.write_server_running false ∈ r.trace ∧
        r.trace.getLast? = some Call.init_cv_notify_all) ∧
    (∀ r, run_server o server_port connection_queue_capacity worker_count callback_args
        server_running schedule = some r → r.value = false → o.step_fails) ∧
    (¬ o.step_fails →
      ∃ st0, run_server_startup o server_port connection_queue_capacity worker_count
          callback_args server_running = Startup.started st0 ∧
        (∀ st1, run st0 schedule = Outcome.ok st1 → st1.reactor = ReactorPc.returned →
          ∃ r, run_server o server_port connection_queue_capacity worker_count callback_args
            server_running schedule = some r ∧ r.value = true) ∧
        (∃ r, run_server o server_port connection_queue_capacity worker_count callback_args
            server_running (shutdown_schedule worker_count) = some r ∧ r.value = true)) := by
  obtain ⟨p1, p2, p3, p4, p5, p6⟩ := hposix
  by_cases h1 : o.socket_result = -1
  · simp [StartupOracle.step_fails, run_server, run_server_startup, socket_type.is_valid, h1,
      cleanup_server, RunState.calls, network_error]
  have v1 : 0 ≤ o.socket_result := by omega
  by_cases h2 : o.setsockopt_result = -1
  · simp [StartupOracle.step_fails, run_server, run_server_startup, socket_type.is_valid, v1, h2,
      cleanup_server, cleanup_server_sock, RunState.calls, network_error]
  have v2 : o.setsockopt_result = 0 := by omega
  by_cases h3 : o.bind_result = -1
  · simp [StartupOracle.step_fails, run_server, run_server_startup, socket_type.is_valid, v1, v2,
      h3, cleanup_server, cleanup_server_sock, RunState.calls, network_error]
  have v3 : o.bind_result = 0 := by omega
  by_cases h4 : o.listen_result = -1
  · simp [StartupOracle.step_fails, run_server, run_server_startup, socket_type.is_valid, v1, v2,
      v3, h4, cleanup_server, cleanup_server_sock, RunState.calls, network_error]
  have v4 : o.listen_result = 0 := by omega
  by_cases h5 : o.epoll_create1_result = -1
  · simp [StartupOracle.step_fails, run_server, run_server_startup, socket_type.is_valid, v1, v2,
      v3, v4, h5, init, cleanup_server, cleanup_server_sock, RunState.calls, network_error,
      listener_error]
  by_cases h6 : o.epoll_ctl_result = -1
  · simp [StartupOracle.step_fails, run_server, run_server_startup, socket_type.is_valid, v1, v2,
      v3, v4, h5, h6, init, socket_listener.add_socket, cleanup_server, cleanup_server_sock,
      cleanup_server_listener, socket_listener.free, RunState.calls, network_error,
      listener_error]
  have hnf : ¬ o.step_fails := by
    simp [StartupOracle.step_fails, h1, h2, h3, h4, h5, h6]
  have hstart : ∃ st0, run_server_startup o server_port connection_queue_capacity worker_count
      callback_args server_running = Startup.started st0 ∧
      st0.workers = List.replicate worker_count WorkerPc.loop_test ∧
      st0.reactor = ReactorPc.loop_test := by
    simp [run_server_startup, socket_type.is_valid, v1, v2, v3, v4, h5, h6, init,
      socket_listener.add_socket]
  obtain ⟨st0, hst0, hw0, hpc0⟩ := hstart
  refine ⟨fun hf => absurd hf hnf, ?_, fun _ => ⟨st0, hst0, ?_, ?_⟩⟩
  · intro r hr hv
    simp only [run_server, hst0] at hr
    split at hr
    · split at hr
      · cases hr; cases hv
      · cases hr
    · cases hr
  · intro st1 hrun hret
    simp [run_server, hst0, hrun, hret]
  · obtain ⟨st1, hrun, hret⟩ := run_shutdown_schedule st0 worker_count hw0 hpc0
    simp [run_server, hst0, hrun, hret]

theorem run_server_returns_false_iff_startup_fails_witness :
    sample_oracle.posix ∧ ¬ sample_oracle.step_fails ∧
    (∃ r, run_server sample_oracle 8080 16 1 (0 : Nat) true (shutdown_schedule 1) = some r ∧
      r.value = true) ∧
    (StartupOracle.mk 3 0 (-1) 0 4 0).posix ∧ (StartupOracle.mk 3 0 (-1) 0 4 0).step_fails ∧
    (∃ r, run_server (StartupOracle.mk 3 0 (-1) 0 4 0) 80 16 1 (0 : Nat) true sample_schedule
        = some r ∧ r.value = false ∧ r.server_running = false ∧
      Call.write_server_running false ∈ r.trace ∧
      r.trace.getLast? = some Call.init_cv_notify_all) :=
  have hp : sample_oracle.posix := by simp [StartupOracle.posix, sample_oracle]
  have hn : ¬ sample_oracle.step_fails := by simp [StartupOracle.step_fails, sample_oracle]
  have hq : (StartupOracle.mk 3 0 (-1) 0 4 0).posix := by simp [StartupOracle.posix]
  have hf : (StartupOracle.mk 3 0 (-1) 0 4 0).step_fails := by simp [StartupOracle.step_fails]
  ⟨hp, hn,
   ((run_server_returns_false_iff_startup_fails sample_oracle 8080 16 1 (0 : Nat) true
      (shutdown_schedule 1) hp).2.2 hn).elim (fun _ h => h.2.2),
   hq, hf,
   (run_server_returns_false_iff_startup_fails (StartupOracle.mk 3 0 (-1) 0 4 0) 80 16 1 (0 : Nat)
      true sample_schedule hq).1 hf⟩

/-! ## Defects -/

/-- C10: a worker can execute `event_queue.pop()` on an empty ready queue while
`server_running` is true.  From a started server with one worker and nothing queued, the
worker blocks in `cv.wait(lck)`; the wait has no predicate, so when it returns without a push
having happened (a spurious wake-up) the worker goes on to `pop()`. -/
theorem worker_pops_empty_queue_after_spurious_wakeup :
    run_server_startup sample_oracle 8080 16 1 (0 : Nat) true = Startup.started sample_started ∧
    sample_started.server_running = true ∧
    sample_started.event_queue.data = [] ∧
    run sample_started [Label.reactor_test, Label.worker_test 0, Label.worker_iteration 0 1 0]
      = Outcome.pop_on_empty_queue := by
  decide

/-- C9: `run_client` does not follow the list in its linked order.  On `client_failing_input`
the first entry that connects in linked order is the one with address bytes 2, but the loop
advances with `entry++` to the entry lying behind the first in memory and hands
`process_connection` the socket connected to address bytes 3.  On
`client_failing_input_apart` the same increment leaves the list: the loop reads an `addrinfo`
at address 1048, where none lives, and the second entry is never tried. -/
theorem run_client_advances_by_pointer_increment :
    spec_first_connectable client_failing_input 3 client_failing_input.addresses
      = some ⟨2, 1, 6, 2, some 1048⟩ ∧
    run_client client_failing_input 3 = ClientOutcome.returned true
      [ClientCall.getaddrinfo 0,
       ClientCall.socket 10 1 6 5, ClientCall.connect 5 1 (-1),
       ClientCall.perror ("run_client ERROR: Unable to connect"), ClientCall.shutdown 5,
       ClientCall.socket 2 1 6 7, ClientCall.connect 7 3 0,
       ClientCall.freeaddrinfo, ClientCall.process_connection ⟨7⟩] ∧
    spec_first_connectable client_failing_input_apart 2 client_failing_input_apart.addresses
      = some ⟨2, 1, 6, 2, none⟩ ∧
    run_client client_failing_input_apart 2 = ClientOutcome.invalid_read 1048
      [ClientCall.getaddrinfo 0,
       ClientCall.socket 10 1 6 5, ClientCall.connect 5 1 (-1),
       ClientCall.perror ("run_client ERROR: Unable to connect"), ClientCall.shutdown 5] := by
  refine ⟨by decide, by decide, by decide, by decide⟩

end nel
